import Mathlib

/-!
Verification of the quality-bot technical-debt detector core against its
specification. The Go sources under `src/` are shallowly embedded: Go `int`
becomes `Int`, Go `float64` similarity scores and debt scores become `ℚ`,
Go string-typed enums (`model.Severity`, `model.Category`) stay strings, and
Go maps used as sets become lists of keys. Presentation-only string fields of
`model.DebtIssue` (`Description`, `Suggestion`, `CodeSnippet`, and the open
`Metrics` map) do not influence any verified behaviour and are omitted from
the embedded record.
-/

namespace QualityBot

/-- Severity mirrors `model.Severity` (src/model/issue.go): a string type with
four canonical constants. -/
abbrev Severity := String

/-- Constant `model.SeverityLow`. -/
def SeverityLow : Severity := "low"

/-- Constant `model.SeverityMedium`. -/
def SeverityMedium : Severity := "medium"

/-- Constant `model.SeverityHigh`. -/
def SeverityHigh : Severity := "high"

/-- Constant `model.SeverityCritical`. -/
def SeverityCritical : Severity := "critical"

/-- Category mirrors `model.Category` (src/model/issue.go). -/
abbrev Category := String

/-- Constant `model.CategoryComplexity`. -/
def CategoryComplexity : Category := "complexity"

/-- Constant `model.CategorySize`. -/
def CategorySize : Category := "size"

/-- Constant `model.CategoryCoupling`. -/
def CategoryCoupling : Category := "coupling"

/-- Constant `model.CategoryDuplication`. -/
def CategoryDuplication : Category := "duplication"

/-- DebtIssue mirrors `model.DebtIssue` (src/model/issue.go) restricted to the
fields that the detection, deduplication, filtering and scoring logic reads or
writes. -/
structure DebtIssue where
  category : Category
  subcategory : String
  severity : Severity
  filePath : String
  startLine : Int
  endLine : Int
  entityName : String
  entityType : String
deriving DecidableEq, Repr

/-- FunctionMetrics mirrors `model.FunctionMetrics` (src/model/metrics.go). -/
structure FunctionMetrics where
  id : String
  name : String
  filePath : String
  startLine : Int
  endLine : Int
  className : String
  lineCount : Int
  parameterCount : Int
  cyclomaticComplexity : Int
  conditionalCount : Int
  loopCount : Int
  branchCount : Int
  maxNestingDepth : Int
  callerCount : Int
  calleeCount : Int
  externalCalls : Int
  ownFieldUses : Int
  externalFieldUses : Int
deriving DecidableEq, Repr

/-- ClassMetrics mirrors `model.ClassMetrics` (src/model/metrics.go). -/
structure ClassMetrics where
  id : String
  name : String
  filePath : String
  startLine : Int
  endLine : Int
  lineCount : Int
  methodCount : Int
  fieldCount : Int
  primitiveFieldCount : Int
  dependencyCount : Int
  dependentCount : Int
  inheritanceDepth : Int
deriving DecidableEq, Repr

/-- FileMetrics mirrors `model.FileMetrics` (src/model/metrics.go); the
average-complexity float is embedded as a rational. -/
structure FileMetrics where
  path : String
  language : String
  lineCount : Int
  functionCount : Int
  classCount : Int
  totalCyclomaticComplexity : Int
  maxFunctionComplexity : Int
  avgFunctionComplexity : ℚ
deriving DecidableEq, Repr

/-- ClassPairMetrics mirrors `model.ClassPairMetrics` (src/model/metrics.go). -/
structure ClassPairMetrics where
  class1Name : String
  class1File : String
  class2Name : String
  class2File : String
  calls1To2 : Int
  calls2To1 : Int
  sharedFieldAccess : Int
deriving DecidableEq, Repr

/-! Severity filtering (`BaseDetector.FilterBySeverity`, src/service/detector/coupling.go) -/

/-- Canonical order list built in `FilterBySeverity`:
`[low, medium, high, critical]`. -/
def severityOrder : List Severity :=
  [SeverityLow, SeverityMedium, SeverityHigh, SeverityCritical]

/-- First loop of `FilterBySeverity`: scan `order` for the configured minimum
severity; `minIdx` stays 0 when the minimum is not a canonical level. -/
def severityMinIdxLoop (minSev : Severity) : List Severity → Nat → Nat
  | [], _ => 0
  | s :: rest, i => if s = minSev then i else severityMinIdxLoop minSev rest (i + 1)

/-- Inner loop of `FilterBySeverity`: an issue is appended when some index `i`
of `order` carries its severity with `i ≥ minIdx` (the loop breaks right after
appending). -/
def severityKeepLoop (sev : Severity) (minIdx : Nat) : List Severity → Nat → Bool
  | [], _ => false
  | s :: rest, i =>
    if s = sev ∧ minIdx ≤ i then true else severityKeepLoop sev minIdx rest (i + 1)

/-- FilterBySeverity mirrors `BaseDetector.FilterBySeverity`: the two range
loops over `order` reduce to a filter because `order` has pairwise-distinct
entries. -/
def FilterBySeverity (minSeverity : Severity) (issues : List DebtIssue) : List DebtIssue :=
  issues.filter fun issue =>
    severityKeepLoop issue.severity (severityMinIdxLoop minSeverity severityOrder 0) severityOrder 0

/-- Rank of a severity in the four-level total order low < medium < high <
critical (specification-side reading of the order; non-canonical strings rank
above every canonical level). -/
def sevRank (s : Severity) : Nat :=
  if s = SeverityLow then 0
  else if s = SeverityMedium then 1
  else if s = SeverityHigh then 2
  else if s = SeverityCritical then 3
  else 4

/-! Debt score (`AnalysisController.calculateDebtScore`, src/controller/analysis.go) -/

/-- Weight lookup in `calculateDebtScore`; a Go map read of a missing key
yields the zero value, hence the final 0 branch. -/
def severityWeight (s : Severity) : Int :=
  if s = SeverityLow then 1
  else if s = SeverityMedium then 3
  else if s = SeverityHigh then 7
  else if s = SeverityCritical then 15
  else 0

/-- calculateDebtScore mirrors `AnalysisController.calculateDebtScore`:
weighted sum over issues, divided by 10, clamped above at 100, with an early
0 for an empty issue list. -/
def calculateDebtScore (issues : List DebtIssue) : ℚ :=
  if issues.length = 0 then 0
  else
    let total : Int := issues.foldl (fun acc issue => acc + severityWeight issue.severity) 0
    let score : ℚ := (total : ℚ) / 10
    if score > 100 then 100 else score

/-- Folding the per-issue weights from any starting accumulator is the
accumulator plus the mapped sum. -/
theorem foldl_weight_eq_sum (issues : List DebtIssue) (a : Int) :
    issues.foldl (fun acc issue => acc + severityWeight issue.severity) a
      = a + (issues.map (fun issue => severityWeight issue.severity)).sum := by
  induction issues generalizing a with
  | nil => simp
  | cons i rest ih =>
    simp only [List.foldl_cons, List.map_cons, List.sum_cons, ih]
    ring

/-- Every severity weight is nonnegative. -/
theorem severityWeight_nonneg (s : Severity) : 0 ≤ severityWeight s := by
  unfold severityWeight
  repeat' split
  all_goals norm_num

/-- Sample issues used by concrete witnesses. -/
def sampleIssue (cat : Category) (sev : Severity) (file : String) : DebtIssue :=
  { category := cat, subcategory := "s", severity := sev, filePath := file,
    startLine := 1, endLine := 2, entityName := "e", entityType := "function" }

/-- C2: for every issue collection over the four canonical severities, the debt
score is the weighted sum (low=1, medium=3, high=7, critical=15) divided by 10,
clamped to [0, 100]; the empty collection scores 0 and a singleton critical
issue scores 1.5. -/
theorem debt_score_weighted_clamped :
    (∀ issues : List DebtIssue, (∀ i ∈ issues, i.severity ∈ severityOrder) →
        calculateDebtScore issues
            = min (((issues.map (fun i => severityWeight i.severity)).sum : ℚ) / 10) 100
          ∧ 0 ≤ calculateDebtScore issues ∧ calculateDebtScore issues ≤ 100)
    ∧ calculateDebtScore [] = 0
    ∧ ∀ issue : DebtIssue, issue.severity = SeverityCritical →
        calculateDebtScore [issue] = 3 / 2 := by
  have hsum_nonneg : ∀ issues : List DebtIssue,
      (0 : Int) ≤ (issues.map (fun i => severityWeight i.severity)).sum := by
    intro issues
    apply List.sum_nonneg
    intro x hx
    simp only [List.mem_map] at hx
    obtain ⟨i, _, rfl⟩ := hx
    exact severityWeight_nonneg _
  have hmain : ∀ issues : List DebtIssue,
      calculateDebtScore issues
        = min (((issues.map (fun i => severityWeight i.severity)).sum : ℚ) / 10) 100 := by
    intro issues
    unfold calculateDebtScore
    rcases issues with _ | ⟨i, rest⟩
    · simp
    · simp only [List.length_cons, Nat.succ_ne_zero, if_false, foldl_weight_eq_sum, zero_add]
      rcases le_or_lt ((((i :: rest).map (fun i => severityWeight i.severity)).sum : ℚ) / 10) 100
        with h | h
      · rw [min_eq_left h, if_neg (not_lt.mpr h)]
      · rw [min_eq_right h.le, if_pos h]
  refine ⟨fun issues _ => ⟨hmain issues, ?_, ?_⟩, by simp [calculateDebtScore], ?_⟩
  · rw [hmain issues]
    have h0 : (0 : ℚ) ≤ ((issues.map (fun i => severityWeight i.severity)).sum : ℚ) / 10 := by
      apply div_nonneg _ (by norm_num)
      exact_mod_cast hsum_nonneg issues
    exact le_min h0 (by norm_num)
  · rw [hmain issues]
    exact min_le_right _ _
  · intro issue h
    rw [hmain [issue]]
    simp [severityWeight, h, SeverityCritical, SeverityLow, SeverityMedium, SeverityHigh]
    norm_num

/-- Witness for `debt_score_weighted_clamped` at a concrete two-issue
collection (critical + low: (15 + 1) / 10 = 8/5). -/
theorem debt_score_weighted_clamped_witness :
    calculateDebtScore
        [sampleIssue CategorySize SeverityCritical "a.go",
         sampleIssue CategorySize SeverityLow "b.go"] = 8 / 5 := by
  have h := (debt_score_weighted_clamped.1
    [sampleIssue CategorySize SeverityCritical "a.go",
     sampleIssue CategorySize SeverityLow "b.go"] (by decide)).1
  rw [h]
  simp +decide only [sampleIssue, severityWeight, SeverityCritical, SeverityLow, SeverityMedium,
    SeverityHigh, List.map_cons, List.map_nil, List.sum_cons, List.sum_nil, min_def]
  norm_num

/-- C3: for canonical issue severities and a canonical configured minimum M,
`FilterBySeverity` returns exactly the sublist of issues whose severity is ≥ M
in the order low < medium < high < critical (a `List.filter`, so relative order
is preserved). -/
theorem filter_by_severity_retains_ge (minSeverity : Severity) (issues : List DebtIssue)
    (hmin : minSeverity ∈ severityOrder)
    (hall : ∀ issue ∈ issues, issue.severity ∈ severityOrder) :
    FilterBySeverity minSeverity issues
      = issues.filter (fun issue => sevRank minSeverity ≤ sevRank issue.severity) := by
  unfold FilterBySeverity
  apply List.filter_congr
  intro issue hmem
  have hsev := hall issue hmem
  simp only [severityOrder, List.mem_cons, List.not_mem_nil, or_false] at hmin hsev
  rcases hmin with rfl | rfl | rfl | rfl <;>
    rcases hsev with h | h | h | h <;>
      rw [h] <;> decide

/-- Witness for `filter_by_severity_retains_ge`: minimum "high" keeps the high
and critical issues, in order, and drops the rest. -/
theorem filter_by_severity_retains_ge_witness :
    FilterBySeverity SeverityHigh
        [sampleIssue CategorySize SeverityLow "a.go",
         sampleIssue CategorySize SeverityCritical "b.go",
         sampleIssue CategorySize SeverityMedium "c.go",
         sampleIssue CategorySize SeverityHigh "d.go"]
      = [sampleIssue CategorySize SeverityCritical "b.go",
         sampleIssue CategorySize SeverityHigh "d.go"] := by
  have h := filter_by_severity_retains_ge SeverityHigh
    [sampleIssue CategorySize SeverityLow "a.go",
     sampleIssue CategorySize SeverityCritical "b.go",
     sampleIssue CategorySize SeverityMedium "c.go",
     sampleIssue CategorySize SeverityHigh "d.go"] (by decide) (by decide)
  rw [h]
  decide

/-! Inappropriate intimacy (`CouplingDetector.detectInappropriateIntimacy`,
src/service/detector/coupling.go). The exclusion matcher is passed as an
opaque predicate, exactly as the detector only ever calls
`ShouldExclude(filePath, className, funcName)`. Go compares strings by byte
order, which agrees with Lean's lexicographic `String` order on the code
points. -/

/-- Canonical key built inside `detectInappropriateIntimacy`: the two class
names joined by ":" after sorting them lexicographically. -/
def intimacyKey (p : ClassPairMetrics) : String :=
  if p.class1Name > p.class2Name then p.class2Name ++ ":" ++ p.class1Name
  else p.class1Name ++ ":" ++ p.class2Name

/-- Issue literal appended by `detectInappropriateIntimacy` (bidirectional
coupling is always reported as high severity). -/
def createIntimacyIssue (p : ClassPairMetrics) : DebtIssue :=
  { category := CategoryCoupling, subcategory := "inappropriate_intimacy",
    severity := SeverityHigh, filePath := p.class1File, startLine := 1, endLine := 1,
    entityName := p.class1Name ++ " <-> " ++ p.class2Name, entityType := "class_pair" }

/-- Emission condition of the loop body: neither class excluded, and the call
counts in both directions strictly exceed the configured threshold. -/
def intimacyQualifies (t : Int) (exclude : String → String → String → Bool)
    (p : ClassPairMetrics) : Bool :=
  !(exclude p.class1File p.class1Name "" || exclude p.class2File p.class2Name "")
    && (decide (t < p.calls1To2) && decide (t < p.calls2To1))

/-- Loop of `detectInappropriateIntimacy` with the `reported` set of canonical
keys (a Go `map[string]bool`) carried explicitly. -/
def intimacyLoop (t : Int) (exclude : String → String → String → Bool) :
    List ClassPairMetrics → List String → List DebtIssue
  | [], _ => []
  | p :: rest, reported =>
    if exclude p.class1File p.class1Name "" || exclude p.class2File p.class2Name "" then
      intimacyLoop t exclude rest reported
    else if t < p.calls1To2 ∧ t < p.calls2To1 then
      if intimacyKey p ∈ reported then intimacyLoop t exclude rest reported
      else createIntimacyIssue p :: intimacyLoop t exclude rest (intimacyKey p :: reported)
    else intimacyLoop t exclude rest reported

/-- detectInappropriateIntimacy mirrors the source function: run the loop with
an empty `reported` set. -/
def detectInappropriateIntimacy (t : Int) (exclude : String → String → String → Bool)
    (pairs : List ClassPairMetrics) : List DebtIssue :=
  intimacyLoop t exclude pairs []

/-- Specification-side reading of first-discovery-wins deduplication: keep each
record and drop every later record sharing its canonical key. -/
def firstPerKey : List ClassPairMetrics → List ClassPairMetrics
  | [] => []
  | p :: rest =>
    p :: firstPerKey (rest.filter fun q => decide (intimacyKey q ≠ intimacyKey p))
termination_by l => l.length
decreasing_by
  simp only [List.length_cons]
  exact Nat.lt_succ_of_le (List.length_filter_le _ _)

/-- Records kept by `firstPerKey` all come from the input list. -/
theorem firstPerKey_subset : ∀ (l : List ClassPairMetrics), ∀ q ∈ firstPerKey l, q ∈ l
  | [] => by simp [firstPerKey]
  | p :: rest => by
    rw [firstPerKey]
    intro q hq
    rcases List.mem_cons.mp hq with rfl | hq'
    · exact List.mem_cons_self _ _
    · exact List.mem_cons_of_mem _
        (List.mem_of_mem_filter (firstPerKey_subset _ q hq'))
termination_by l => l.length
decreasing_by
  simp only [List.length_cons]
  exact Nat.lt_succ_of_le (List.length_filter_le _ _)

/-- Canonical keys are pairwise distinct in the output of `firstPerKey`. -/
theorem firstPerKey_pairwise :
    ∀ (l : List ClassPairMetrics),
      (firstPerKey l).Pairwise (fun p q => intimacyKey p ≠ intimacyKey q)
  | [] => by simp [firstPerKey]
  | p :: rest => by
    rw [firstPerKey]
    refine List.Pairwise.cons (fun q hq => ?_) (firstPerKey_pairwise _)
    have hmem := firstPerKey_subset _ q hq
    have hne := (List.mem_filter.mp hmem).2
    simp only [decide_eq_true_eq] at hne
    exact fun he => hne he.symm
termination_by l => l.length
decreasing_by
  simp only [List.length_cons]
  exact Nat.lt_succ_of_le (List.length_filter_le _ _)

/-- Every input record's canonical key is represented in `firstPerKey`'s
output (first discovery wins; later duplicates are only suppressed, never
lost as a key). -/
theorem firstPerKey_represents :
    ∀ (l : List ClassPairMetrics), ∀ q ∈ l,
      ∃ p ∈ firstPerKey l, intimacyKey p = intimacyKey q
  | [] => by simp
  | p :: rest => by
    intro q hq
    rw [firstPerKey]
    rcases List.mem_cons.mp hq with rfl | hq'
    · exact ⟨q, List.mem_cons_self _ _, rfl⟩
    · by_cases hk : intimacyKey q = intimacyKey p
      · exact ⟨p, List.mem_cons_self _ _, hk.symm⟩
      · have hq'' : q ∈ rest.filter fun r => decide (intimacyKey r ≠ intimacyKey p) :=
          List.mem_filter.mpr ⟨hq', by simp [hk]⟩
        obtain ⟨p', hp', he⟩ := firstPerKey_represents _ q hq''
        exact ⟨p', List.mem_cons_of_mem _ hp', he⟩
termination_by l => l.length
decreasing_by
  simp only [List.length_cons]
  exact Nat.lt_succ_of_le (List.length_filter_le _ _)

/-- Filtering away already-reported keys and then the head's key is the same
as filtering against the extended reported set. -/
theorem filter_notMem_cons (keyp : String) (reported : List String)
    (l : List ClassPairMetrics) :
    ((l.filter fun q => decide (intimacyKey q ∉ reported)).filter
        fun q => decide (intimacyKey q ≠ keyp))
      = l.filter fun q => decide (intimacyKey q ∉ keyp :: reported) := by
  rw [List.filter_filter]
  apply List.filter_congr
  intro a _
  by_cases h1 : intimacyKey a = keyp <;> by_cases h2 : intimacyKey a ∈ reported <;>
    simp [h1, h2, List.mem_cons]

/-- Loop/accumulator characterisation: the intimacy loop emits exactly the
first-per-key records among the qualifying ones whose key is not yet
reported. -/
theorem intimacyLoop_eq (t : Int) (exclude : String → String → String → Bool) :
    ∀ (pairs : List ClassPairMetrics) (reported : List String),
      intimacyLoop t exclude pairs reported
        = (firstPerKey ((pairs.filter (intimacyQualifies t exclude)).filter
            fun p => decide (intimacyKey p ∉ reported))).map createIntimacyIssue := by
  intro pairs
  induction pairs with
  | nil => intro reported; simp [intimacyLoop, firstPerKey]
  | cons p rest ih =>
    intro reported
    by_cases hex : (exclude p.class1File p.class1Name ""
        || exclude p.class2File p.class2Name "") = true
    · have hq : intimacyQualifies t exclude p = false := by
        simp [intimacyQualifies, hex]
      simp only [intimacyLoop, hex, if_true, List.filter_cons, hq, Bool.false_eq_true,
        if_false]
      exact ih reported
    · rw [Bool.not_eq_true] at hex
      by_cases hcond : t < p.calls1To2 ∧ t < p.calls2To1
      · have hq : intimacyQualifies t exclude p = true := by
          simp [intimacyQualifies, hex, hcond.1, hcond.2]
        by_cases hk : intimacyKey p ∈ reported
        · simp only [intimacyLoop, hex, Bool.false_eq_true, if_false, if_pos hcond,
            if_pos hk, List.filter_cons, hq, if_true, hk, decide_not, decide_eq_true_eq]
          rw [ih reported]
          congr 2
          simp [List.filter_cons, hk]
        · simp only [intimacyLoop, hex, Bool.false_eq_true, if_false, if_pos hcond,
            if_neg hk, List.filter_cons, hq, if_true]
          rw [ih (intimacyKey p :: reported)]
          have hkd : decide (intimacyKey p ∉ reported) = true := by simp [hk]
          simp only [hkd, if_true]
          rw [firstPerKey, List.map_cons, filter_notMem_cons]
      · have hq : intimacyQualifies t exclude p = false := by
          simp only [intimacyQualifies, hex, Bool.not_false, Bool.true_and]
          rcases Decidable.not_and_iff_or_not.mp hcond with h | h <;> simp [h]
        simp only [intimacyLoop, hex, Bool.false_eq_true, if_false, if_neg hcond,
          List.filter_cons, hq]
        exact ih reported

/-- Swapping the two sides of a class-pair record (the same semantic pair seen
from the other direction). -/
def swapPair (p : ClassPairMetrics) : ClassPairMetrics :=
  { class1Name := p.class2Name, class1File := p.class2File,
    class2Name := p.class1Name, class2File := p.class1File,
    calls1To2 := p.calls2To1, calls2To1 := p.calls1To2,
    sharedFieldAccess := p.sharedFieldAccess }

/-- The canonical key is order-independent: it does not change when a pair is
seen from the other side. -/
theorem intimacyKey_swap (p : ClassPairMetrics) :
    intimacyKey (swapPair p) = intimacyKey p := by
  unfold intimacyKey swapPair
  rcases lt_trichotomy p.class1Name p.class2Name with h | h | h
  · simp [h, not_lt_of_lt h, gt_iff_lt]
  · simp [h]
  · simp [h, not_lt_of_lt h, gt_iff_lt]

/-- C4: inappropriate-intimacy detection emits exactly one issue per canonical
key (the class names sorted lexicographically): the output is the first
qualifying record per key, mapped to an issue; kept records qualify (both call
directions strictly exceed the threshold, neither class excluded); every
qualifying record's key is represented exactly once; and the key is invariant
under swapping the pair, so (A,B) and (B,A) can never both be reported in one
run. -/
theorem intimacy_canonical_dedup (t : Int) (exclude : String → String → String → Bool)
    (pairs : List ClassPairMetrics) :
    detectInappropriateIntimacy t exclude pairs
        = (firstPerKey (pairs.filter (intimacyQualifies t exclude))).map createIntimacyIssue
      ∧ (firstPerKey (pairs.filter (intimacyQualifies t exclude))).Pairwise
          (fun p q => intimacyKey p ≠ intimacyKey q)
      ∧ (∀ p ∈ firstPerKey (pairs.filter (intimacyQualifies t exclude)),
          p ∈ pairs ∧ intimacyQualifies t exclude p = true)
      ∧ (∀ q ∈ pairs, intimacyQualifies t exclude q = true →
          ∃ p ∈ firstPerKey (pairs.filter (intimacyQualifies t exclude)),
            intimacyKey p = intimacyKey q)
      ∧ ∀ p, intimacyKey (swapPair p) = intimacyKey p := by
  refine ⟨?_, firstPerKey_pairwise _, fun p hp => ?_, fun q hq hqual => ?_, intimacyKey_swap⟩
  · unfold detectInappropriateIntimacy
    rw [intimacyLoop_eq]
    congr 1
    simp
  · have hmem := firstPerKey_subset _ p hp
    exact ⟨List.mem_of_mem_filter hmem, (List.mem_filter.mp hmem).2⟩
  · exact firstPerKey_represents _ q (List.mem_filter.mpr ⟨hq, hqual⟩)

/-- Concrete class pair from the spec scenario: calls 5 one way and 4 the
other, against threshold 3. -/
def pairAB : ClassPairMetrics :=
  { class1Name := "Alpha", class1File := "alpha.go", class2Name := "Beta",
    class2File := "beta.go", calls1To2 := 5, calls2To1 := 4, sharedFieldAccess := 2 }

/-- Witness for `intimacy_canonical_dedup`: the same semantic pair appearing
as both (Alpha,Beta) and (Beta,Alpha) yields exactly one issue, for the first
record. -/
theorem intimacy_canonical_dedup_witness :
    detectInappropriateIntimacy 3 (fun _ _ _ => false) [pairAB, swapPair pairAB]
      = [createIntimacyIssue pairAB] := by
  have h := (intimacy_canonical_dedup 3 (fun _ _ _ => false) [pairAB, swapPair pairAB]).1
  rw [h]
  simp +decide [firstPerKey, pairAB, swapPair, intimacyQualifies, intimacyKey,
    List.filter_cons]

/-! Metrics provider (`metrics.Provider`, src/service/metrics/provider.go).
Sequential embedding: the provider's four cached slots become an explicit
state record, the external service becomes a fetch-outcome oracle per call,
and the returned `Nat` counts external queries issued by the call (0 or 1).
The read-lock / write-lock double-checked population is concurrency control
that collapses to a single cache check in a sequential semantics. A Go nil
slice is `none`. -/

/-- Cached collections of `metrics.Provider`. -/
structure ProviderCache where
  functionMetrics : Option (List FunctionMetrics)
  classMetrics : Option (List ClassMetrics)
  fileMetrics : Option (List FileMetrics)
  classPairMetrics : Option (List ClassPairMetrics)
deriving Repr, DecidableEq

/-- State of a freshly constructed provider (`metrics.NewProvider`): nothing
cached. -/
def emptyCache : ProviderCache := ⟨none, none, none, none⟩

/-- GetAllFunctionMetrics mirrors `Provider.GetAllFunctionMetrics`: return the
cached slot when populated; otherwise fetch, return any error without touching
the state, and populate the slot only when caching is enabled. -/
def GetAllFunctionMetrics (cacheEnabled : Bool)
    (fetch : Except String (List FunctionMetrics)) (p : ProviderCache) :
    Except String (List FunctionMetrics) × ProviderCache × Nat :=
  match p.functionMetrics with
  | some m => (.ok m, p, 0)
  | none =>
    match fetch with
    | .error e => (.error e, p, 1)
    | .ok m => (.ok m, if cacheEnabled then { p with functionMetrics := some m } else p, 1)

/-- GetAllClassMetrics mirrors `Provider.GetAllClassMetrics`. -/
def GetAllClassMetrics (cacheEnabled : Bool)
    (fetch : Except String (List ClassMetrics)) (p : ProviderCache) :
    Except String (List ClassMetrics) × ProviderCache × Nat :=
  match p.classMetrics with
  | some m => (.ok m, p, 0)
  | none =>
    match fetch with
    | .error e => (.error e, p, 1)
    | .ok m => (.ok m, if cacheEnabled then { p with classMetrics := some m } else p, 1)

/-- GetAllFileMetrics mirrors `Provider.GetAllFileMetrics`. -/
def GetAllFileMetrics (cacheEnabled : Bool)
    (fetch : Except String (List FileMetrics)) (p : ProviderCache) :
    Except String (List FileMetrics) × ProviderCache × Nat :=
  match p.fileMetrics with
  | some m => (.ok m, p, 0)
  | none =>
    match fetch with
    | .error e => (.error e, p, 1)
    | .ok m => (.ok m, if cacheEnabled then { p with fileMetrics := some m } else p, 1)

/-- GetClassPairMetrics mirrors `Provider.GetClassPairMetrics`. -/
def GetClassPairMetrics (cacheEnabled : Bool)
    (fetch : Except String (List ClassPairMetrics)) (p : ProviderCache) :
    Except String (List ClassPairMetrics) × ProviderCache × Nat :=
  match p.classPairMetrics with
  | some m => (.ok m, p, 0)
  | none =>
    match fetch with
    | .error e => (.error e, p, 1)
    | .ok m => (.ok m, if cacheEnabled then { p with classPairMetrics := some m } else p, 1)

/-- C5: with caching enabled, two sequential calls to the function-metrics
accessor whose first call succeeds return the same collection and issue
exactly one external query in total; with caching disabled, the slot is never
populated, so every call issues a query. -/
theorem provider_caching_idempotent (ms : List FunctionMetrics)
    (fetch₂ : Except String (List FunctionMetrics)) (p : ProviderCache)
    (h : p.functionMetrics = none) :
    (GetAllFunctionMetrics true (.ok ms) p).1 = .ok ms
    ∧ (GetAllFunctionMetrics true fetch₂ (GetAllFunctionMetrics true (.ok ms) p).2.1).1
        = .ok ms
    ∧ (GetAllFunctionMetrics true (.ok ms) p).2.2
        + (GetAllFunctionMetrics true fetch₂
            (GetAllFunctionMetrics true (.ok ms) p).2.1).2.2 = 1
    ∧ ∀ fetch : Except String (List FunctionMetrics),
        (GetAllFunctionMetrics false fetch p).2.2 = 1
        ∧ (GetAllFunctionMetrics false fetch p).2.1.functionMetrics = none := by
  refine ⟨?_, ?_, ?_, ?_⟩
  · simp [GetAllFunctionMetrics, h]
  · simp [GetAllFunctionMetrics, h]
  · simp [GetAllFunctionMetrics, h]
  · intro fetch
    cases fetch <;> simp [GetAllFunctionMetrics, h]

/-- Sample function metrics record for concrete witnesses. -/
def sampleFn (idv namev filev : String) (startv endv ccv : Int) : FunctionMetrics :=
  { id := idv, name := namev, filePath := filev, startLine := startv, endLine := endv,
    className := "", lineCount := endv - startv, parameterCount := 1,
    cyclomaticComplexity := ccv, conditionalCount := 0, loopCount := 0, branchCount := 0,
    maxNestingDepth := 1, callerCount := 0, calleeCount := 0, externalCalls := 0,
    ownFieldUses := 0, externalFieldUses := 0 }

/-- Witness for `provider_caching_idempotent` at a fresh provider with one
record: the second call is served from the cache. -/
theorem provider_caching_idempotent_witness :
    (GetAllFunctionMetrics true (.error "down")
        (GetAllFunctionMetrics true (.ok [sampleFn "f1" "f" "a.go" 1 10 1]) emptyCache).2.1).1
      = .ok [sampleFn "f1" "f" "a.go" 1 10 1]
    ∧ (GetAllFunctionMetrics true (.ok [sampleFn "f1" "f" "a.go" 1 10 1]) emptyCache).2.2
        + (GetAllFunctionMetrics true (.error "down")
            (GetAllFunctionMetrics true
              (.ok [sampleFn "f1" "f" "a.go" 1 10 1]) emptyCache).2.1).2.2 = 1 := by
  have h := provider_caching_idempotent [sampleFn "f1" "f" "a.go" 1 10 1]
    (.error "down") emptyCache rfl
  exact ⟨h.2.1, h.2.2.1⟩

/-- C8: when the external fetch fails on an unpopulated slot, every accessor
returns the error and leaves the whole cache state unchanged (its own slot
stays empty and no other slot changes), so a retry issues a fresh query. -/
theorem provider_fetch_error_not_cached (cacheEnabled : Bool) (e : String)
    (p : ProviderCache) :
    (p.functionMetrics = none →
      GetAllFunctionMetrics cacheEnabled (.error e) p = (.error e, p, 1)
      ∧ ∀ fetch : Except String (List FunctionMetrics),
          (GetAllFunctionMetrics cacheEnabled fetch
            (GetAllFunctionMetrics cacheEnabled (.error e) p).2.1).2.2 = 1)
    ∧ (p.classMetrics = none →
        GetAllClassMetrics cacheEnabled (.error e) p = (.error e, p, 1))
    ∧ (p.fileMetrics = none →
        GetAllFileMetrics cacheEnabled (.error e) p = (.error e, p, 1))
    ∧ (p.classPairMetrics = none →
        GetClassPairMetrics cacheEnabled (.error e) p = (.error e, p, 1)) := by
  refine ⟨fun h => ⟨?_, fun fetch => ?_⟩, fun h => ?_, fun h => ?_, fun h => ?_⟩
  · simp [GetAllFunctionMetrics, h]
  · cases fetch <;> simp [GetAllFunctionMetrics, h]
  · simp [GetAllClassMetrics, h]
  · simp [GetAllFileMetrics, h]
  · simp [GetClassPairMetrics, h]

/-- Witness for `provider_fetch_error_not_cached` at a fresh provider. -/
theorem provider_fetch_error_not_cached_witness :
    GetAllFunctionMetrics true (.error "timeout") emptyCache
        = (.error "timeout", emptyCache, 1)
    ∧ GetClassPairMetrics true (.error "timeout") emptyCache
        = (.error "timeout", emptyCache, 1) := by
  have h := provider_fetch_error_not_cached true "timeout" emptyCache
  exact ⟨(h.1 rfl).1, h.2.2.2 rfl⟩

/-! Runner (`Runner.RunAll`, src/service/detector/runner.go). Sequential
embedding of the worker pool: each registered detector is abstracted by its
name, enabled flag and detect outcome (an oracle, since detectors are opaque
to the Runner). Goroutine interleaving only permutes the order in which
issues are merged and errors are sent on the buffered channel; the embedding
fixes the registration-order schedule, one admissible execution. `RunAll`
returns the Go pair `([]model.DebtIssue, error)` as
`List DebtIssue × Option String`. -/

/-- One registered detector as the Runner sees it. -/
structure DetectorSpec where
  name : String
  enabled : Bool
  result : Except String (List DebtIssue)

/-- Issues contributed by a detector: its result's issues on success, nothing
on failure. -/
def issuesOf (d : DetectorSpec) : List DebtIssue :=
  match d.result with
  | .ok issues => issues
  | .error _ => []

/-- Whether a detector's detect call failed. -/
def isFailure (d : DetectorSpec) : Bool :=
  match d.result with
  | .ok _ => false
  | .error _ => true

/-- Error text of a failed detector (empty for a successful one). -/
def errorOf (d : DetectorSpec) : String :=
  match d.result with
  | .ok _ => ""
  | .error e => e

/-- Wrapped error recorded on the channel:
`fmt.Errorf("detector %s: %w", name, err)`. -/
def wrapDetectorError (d : DetectorSpec) : String :=
  "detector " ++ d.name ++ ": " ++ errorOf d

/-- Worker loop of `RunAll`: skip disabled detectors; a failing detector
contributes no issues and, under fail-fast, appends its wrapped error to the
channel; a successful one appends its issues to the merged collection. -/
def runAllLoop (failFast : Bool) :
    List DetectorSpec → List DebtIssue → List String → List DebtIssue × List String
  | [], allIssues, errs => (allIssues, errs)
  | d :: rest, allIssues, errs =>
    if d.enabled then
      match d.result with
      | .error e =>
        runAllLoop failFast rest allIssues
          (if failFast then errs ++ ["detector " ++ d.name ++ ": " ++ e] else errs)
      | .ok issues => runAllLoop failFast rest (allIssues ++ issues) errs
    else runAllLoop failFast rest allIssues errs

/-- RunAll mirrors `Runner.RunAll`: run every enabled detector, then return
the first channel error (with a nil issue collection) if one was recorded,
otherwise the merged issues. -/
def RunAll (failFast : Bool) (ds : List DetectorSpec) : List DebtIssue × Option String :=
  match (runAllLoop failFast ds [] []).2.head? with
  | some e => ([], some e)
  | none => ((runAllLoop failFast ds [] []).1, none)

/-- First enabled detector whose detect call failed, in launch order. -/
def firstEnabledFailure (ds : List DetectorSpec) : Option DetectorSpec :=
  ((ds.filter fun d => d.enabled).filter fun d => isFailure d).head?

/-- Loop invariant: the merged issues are the accumulator followed by every
enabled detector's issues, and the channel holds the accumulated errors
followed (under fail-fast) by the wrapped errors of the enabled failures in
order. -/
theorem runAllLoop_eq (failFast : Bool) :
    ∀ (ds : List DetectorSpec) (allIssues : List DebtIssue) (errs : List String),
      runAllLoop failFast ds allIssues errs
        = (allIssues ++ (ds.filter fun d => d.enabled).flatMap issuesOf,
           errs ++ if failFast then
               (((ds.filter fun d => d.enabled).filter fun d => isFailure d).map
                 wrapDetectorError)
             else []) := by
  intro ds
  induction ds with
  | nil => intro allIssues errs; simp [runAllLoop]
  | cons d rest ih =>
    intro allIssues errs
    by_cases hen : d.enabled = true
    · cases hres : d.result with
      | error e =>
        have hf : isFailure d = true := by simp [isFailure, hres]
        have hw : wrapDetectorError d = "detector " ++ d.name ++ ": " ++ e := by
          simp [wrapDetectorError, errorOf, hres]
        have hio : issuesOf d = [] := by simp [issuesOf, hres]
        cases failFast <;>
          simp [runAllLoop, hen, hres, ih, List.filter_cons, hf, hio, hw]
      | ok issues =>
        have hf : isFailure d = false := by simp [isFailure, hres]
        have hio : issuesOf d = issues := by simp [issuesOf, hres]
        simp [runAllLoop, hen, hres, ih, List.filter_cons, hf, hio]
    · rw [Bool.not_eq_true] at hen
      simp [runAllLoop, hen, ih, List.filter_cons]

/-- Head of a list, when present, is a member. -/
theorem head_some_mem {α : Type} {l : List α} {a : α} (h : l.head? = some a) : a ∈ l := by
  cases l with
  | nil => simp at h
  | cons x t =>
    simp only [List.head?_cons, Option.some.injEq] at h
    exact h ▸ List.mem_cons_self x t

/-- C6: `RunAll` returns an error exactly when fail-fast is configured and
some enabled detector failed; in that case the issue collection is empty and
the error wraps the first recorded failure tagged with the detector's name;
otherwise the collection is exactly the concatenation of the issues of the
enabled detectors that succeeded (failing detectors contribute nothing). -/
theorem runAll_error_policy (failFast : Bool) (ds : List DetectorSpec) :
    RunAll failFast ds
        = (match (if failFast then firstEnabledFailure ds else none) with
           | some d => ([], some (wrapDetectorError d))
           | none => ((ds.filter fun d => d.enabled).flatMap issuesOf, none))
      ∧ ((RunAll failFast ds).2 ≠ none
          ↔ failFast = true ∧ ∃ d ∈ ds, d.enabled = true ∧ isFailure d = true) := by
  have hloop := runAllLoop_eq failFast ds [] []
  have hmain : RunAll failFast ds
      = (match (if failFast then firstEnabledFailure ds else none) with
         | some d => ([], some (wrapDetectorError d))
         | none => ((ds.filter fun d => d.enabled).flatMap issuesOf, none)) := by
    unfold RunAll firstEnabledFailure
    rw [hloop]
    cases failFast with
    | false => simp
    | true =>
      simp only [if_true, List.nil_append, List.head?_map]
      cases hh : ((ds.filter fun d => d.enabled).filter fun d => isFailure d).head? with
      | none => simp
      | some d => simp
  refine ⟨hmain, ?_⟩
  rw [hmain]
  cases failFast with
  | false => simp
  | true =>
    simp only [if_true, Bool.true_eq, true_and]
    cases hh : firstEnabledFailure ds with
    | some d =>
      simp only [hh]
      have hd : d ∈ (ds.filter fun d => d.enabled).filter fun d => isFailure d :=
        head_some_mem hh
      have hd1 := List.mem_filter.mp hd
      have hd2 := List.mem_filter.mp hd1.1
      constructor
      · intro _
        exact ⟨d, hd2.1, hd2.2, hd1.2⟩
      · intro _
        simp
    | none =>
      simp only [hh]
      have hnil : ((ds.filter fun d => d.enabled).filter fun d => isFailure d) = [] := by
        rcases hl : (ds.filter fun d => d.enabled).filter fun d => isFailure d with _ | ⟨x, t⟩
        · exact hl
        · rw [firstEnabledFailure, hl] at hh
          simp at hh
      constructor
      · intro h
        exact absurd rfl h
      · rintro ⟨d, hmem, hen, hfail⟩
        have hd : d ∈ (ds.filter fun d => d.enabled).filter fun d => isFailure d :=
          List.mem_filter.mpr ⟨List.mem_filter.mpr ⟨hmem, hen⟩, hfail⟩
        rw [hnil] at hd
        exact absurd hd (List.not_mem_nil d)

/-- Witness for `runAll_error_policy`: under fail-fast, a failing detector
empties the result and surfaces its wrapped error; without fail-fast, the
failing detector's issues are simply absent. -/
theorem runAll_error_policy_witness :
    RunAll true
        [⟨"complexity", true, .ok [sampleIssue CategoryComplexity SeverityHigh "a.go"]⟩,
         ⟨"coupling", true, .error "connection refused"⟩]
      = ([], some "detector coupling: connection refused")
    ∧ RunAll false
        [⟨"complexity", true, .ok [sampleIssue CategoryComplexity SeverityHigh "a.go"]⟩,
         ⟨"coupling", true, .error "connection refused"⟩]
      = ([sampleIssue CategoryComplexity SeverityHigh "a.go"], none) := by
  constructor
  · have h := (runAll_error_policy true
      [⟨"complexity", true, .ok [sampleIssue CategoryComplexity SeverityHigh "a.go"]⟩,
       ⟨"coupling", true, .error "connection refused"⟩]).1
    rw [h]
    rfl
  · have h := (runAll_error_policy false
      [⟨"complexity", true, .ok [sampleIssue CategoryComplexity SeverityHigh "a.go"]⟩,
       ⟨"coupling", true, .error "connection refused"⟩]).1
    rw [h]
    rfl

/-! Per-category truncation (`AnalysisController.applyGlobalFilters`,
src/controller/analysis.go), applied by `Analyze` to the runner's merged
issues before `generateSummary` builds the report summary. The Go code fills
a `map[Category][]DebtIssue`, appending an issue only while its bucket is
shorter than `MaxIssuesPerCategory` — so each bucket holds the first
`maxPerCategory` issues of that category in merged order — and then flattens
the buckets in (unspecified) map iteration order; the embedding fixes
first-occurrence order of the categories, and the verified property is
order-insensitive (it constrains each category's sublist). -/

/-- Distinct strings of a list in order of first occurrence (the insertion
order of the Go map's keys). -/
def firstOccurrences : List String → List String
  | [] => []
  | c :: rest => c :: firstOccurrences (rest.filter fun x => decide (x ≠ c))
termination_by l => l.length
decreasing_by
  simp only [List.length_cons]
  exact Nat.lt_succ_of_le (List.length_filter_le _ _)

/-- Membership is preserved by `firstOccurrences`. -/
theorem firstOccurrences_mem : ∀ (l : List String) (c : String),
    c ∈ firstOccurrences l ↔ c ∈ l
  | [] => by simp [firstOccurrences]
  | x :: rest => by
    intro c
    rw [firstOccurrences]
    by_cases h : c = x
    · simp [h]
    · simp only [List.mem_cons, h, false_or]
      rw [firstOccurrences_mem (rest.filter fun y => decide (y ≠ x)) c]
      simp [List.mem_filter, h]
termination_by l => l.length
decreasing_by
  simp only [List.length_cons]
  exact Nat.lt_succ_of_le (List.length_filter_le _ _)

/-- The output of `firstOccurrences` has no duplicates. -/
theorem firstOccurrences_nodup : ∀ (l : List String), (firstOccurrences l).Nodup
  | [] => by simp [firstOccurrences]
  | x :: rest => by
    rw [firstOccurrences]
    refine List.Pairwise.cons (fun y hy => ?_) (firstOccurrences_nodup _)
    have hmem := (firstOccurrences_mem _ y).mp hy
    have := (List.mem_filter.mp hmem).2
    simp only [decide_eq_true_eq] at this
    exact fun he => this he.symm
termination_by l => l.length
decreasing_by
  simp only [List.length_cons]
  exact Nat.lt_succ_of_le (List.length_filter_le _ _)

/-- applyGlobalFilters mirrors `AnalysisController.applyGlobalFilters`:
non-positive limits pass the collection through; otherwise each category
keeps its first `maxPerCategory` issues and the buckets are flattened. -/
def applyGlobalFilters (maxPerCategory : Int) (issues : List DebtIssue) : List DebtIssue :=
  if maxPerCategory ≤ 0 then issues
  else
    (firstOccurrences (issues.map fun i => i.category)).flatMap fun c =>
      (issues.filter fun i => decide (i.category = c)).take maxPerCategory.toNat

/-- Bucket arithmetic: filtering the flattened buckets by one category yields
that category's bucket (categories listed without duplicates). -/
theorem filter_flatMap_buckets (issues : List DebtIssue) (m : Nat) (c₀ : Category) :
    ∀ (cs : List Category), cs.Nodup →
      ((cs.flatMap fun c =>
          (issues.filter fun i => decide (i.category = c)).take m).filter
        fun i => decide (i.category = c₀))
        = if c₀ ∈ cs then (issues.filter fun i => decide (i.category = c₀)).take m
          else [] := by
  intro cs
  induction cs with
  | nil => simp
  | cons c cs' ih =>
    intro hnd
    have hnd' := List.nodup_cons.mp hnd
    rw [List.flatMap_cons, List.filter_append, ih hnd'.2]
    by_cases hc : c = c₀
    · subst hc
      have hhead : ((issues.filter fun i => decide (i.category = c)).take m).filter
          (fun i => decide (i.category = c))
            = (issues.filter fun i => decide (i.category = c)).take m := by
        apply List.filter_eq_self.mpr
        intro a ha
        exact (List.mem_filter.mp (List.mem_of_mem_take ha)).2
      rw [hhead]
      simp only [List.mem_cons, true_or, if_true, if_neg hnd'.1]
      simp
    · have hhead : ((issues.filter fun i => decide (i.category = c)).take m).filter
          (fun i => decide (i.category = c₀)) = [] := by
        apply List.filter_eq_nil_iff.mpr
        intro a ha
        have := (List.mem_filter.mp (List.mem_of_mem_take ha)).2
        simp only [decide_eq_true_eq] at this ⊢
        rw [this]
        exact hc
      rw [hhead, List.nil_append]
      have hmc : (c₀ ∈ c :: cs') ↔ (c₀ ∈ cs') := by
        simp only [List.mem_cons, or_iff_right_iff_imp]
        intro he
        exact absurd he.symm hc
      by_cases h0 : c₀ ∈ cs'
      · rw [if_pos h0, if_pos (hmc.mpr h0)]
      · rw [if_neg h0, if_neg (fun hx => h0 (hmc.mp hx))]

/-- C9: with a positive per-category limit m, the filtered collection restricted
to any category is exactly the first m issues of that category in merged
order (later ones dropped); with m ≤ 0 the collection passes through
unchanged. `Analyze` applies this filter before computing the report
summary. -/
theorem apply_global_filters_truncates (m : Int) (issues : List DebtIssue) :
    (0 < m → ∀ c : Category,
      (applyGlobalFilters m issues).filter (fun i => decide (i.category = c))
        = (issues.filter fun i => decide (i.category = c)).take m.toNat)
    ∧ (m ≤ 0 → applyGlobalFilters m issues = issues) := by
  constructor
  · intro hm c
    rw [applyGlobalFilters, if_neg (not_le.mpr hm)]
    rw [filter_flatMap_buckets issues m.toNat c _ (firstOccurrences_nodup _)]
    by_cases hc : c ∈ firstOccurrences (issues.map fun i => i.category)
    · rw [if_pos hc]
    · rw [if_neg hc]
      have hnone : issues.filter (fun i => decide (i.category = c)) = [] := by
        apply List.filter_eq_nil_iff.mpr
        intro a ha
        simp only [decide_eq_true_eq]
        intro he
        apply hc
        rw [firstOccurrences_mem]
        exact List.mem_map.mpr ⟨a, ha, he⟩
      rw [hnone]
      simp
  · intro hm
    rw [applyGlobalFilters, if_pos hm]

/-- Witness for `apply_global_filters_truncates`: limit 1 keeps only the first
issue of each category. -/
theorem apply_global_filters_truncates_witness :
    (applyGlobalFilters 1
        [sampleIssue CategorySize SeverityLow "a.go",
         sampleIssue CategorySize SeverityHigh "b.go",
         sampleIssue CategoryCoupling SeverityLow "c.go"]).filter
      (fun i => decide (i.category = CategorySize))
      = [sampleIssue CategorySize SeverityLow "a.go"] := by
  have h := (apply_global_filters_truncates 1
    [sampleIssue CategorySize SeverityLow "a.go",
     sampleIssue CategorySize SeverityHigh "b.go",
     sampleIssue CategoryCoupling SeverityLow "c.go"]).1 (by norm_num) CategorySize
  rw [h]
  decide

/-! Admission gate (`Runner.RunAll` worker body, src/service/detector/runner.go).
Interleaving model of the launched goroutines: each enabled detector's worker
sends on the buffered semaphore channel of capacity `MaxParallelDetectors`
before invoking detect, and the deferred receive releases the slot on every
exit path — the error return and the successful merge alike. A worker is
`waiting` from launch until acquisition, `running` while it holds a slot
inside detect, and `done` after the release. -/

/-- Phases of one worker goroutine. -/
inductive WPhase where
  | waiting
  | running
  | done
deriving DecidableEq, Repr

/-- Number of workers currently executing detect (holding a semaphore slot). -/
def runningCount (s : List WPhase) : Nat :=
  s.countP fun w => decide (w = WPhase.running)

/-- One interleaving step of the worker pool under gate capacity k: a waiting
worker acquires the semaphore only when fewer than k workers are running
(`sem <- struct{}{}` blocks otherwise); a running worker finishes — with an
error or successfully — and the deferred receive releases its slot. -/
inductive GateStep (k : Nat) : List WPhase → List WPhase → Prop where
  | acquire (s : List WPhase) (i : Nat) (h : s.get? i = some WPhase.waiting)
      (hk : runningCount s < k) : GateStep k s (s.set i WPhase.running)
  | finishOk (s : List WPhase) (i : Nat) (h : s.get? i = some WPhase.running) :
      GateStep k s (s.set i WPhase.done)
  | finishErr (s : List WPhase) (i : Nat) (h : s.get? i = some WPhase.running) :
      GateStep k s (s.set i WPhase.done)

/-- States reachable from the launch state of n enabled workers. -/
def GateReachable (k n : Nat) : List WPhase → Prop :=
  Relation.ReflTransGen (GateStep k) (List.replicate n WPhase.waiting)

/-- Acquiring a slot increases the running count by one. -/
theorem runningCount_set_running :
    ∀ (s : List WPhase) (i : Nat), s.get? i = some WPhase.waiting →
      runningCount (s.set i WPhase.running) = runningCount s + 1 := by
  intro s
  induction s with
  | nil => intro i h; simp at h
  | cons x t ih =>
    intro i h
    cases i with
    | zero =>
      simp only [List.get?_cons_zero, Option.some.injEq] at h
      subst h
      simp [runningCount, List.countP_cons]
    | succ j =>
      simp only [List.get?_cons_succ] at h
      simp only [List.set_cons_succ, runningCount, List.countP_cons]
      have := ih j h
      simp only [runningCount] at this
      omega

/-- Releasing a slot decreases the running count by one. -/
theorem runningCount_set_done :
    ∀ (s : List WPhase) (i : Nat), s.get? i = some WPhase.running →
      runningCount (s.set i WPhase.done) + 1 = runningCount s := by
  intro s
  induction s with
  | nil => intro i h; simp at h
  | cons x t ih =>
    intro i h
    cases i with
    | zero =>
      simp only [List.get?_cons_zero, Option.some.injEq] at h
      subst h
      simp [runningCount, List.countP_cons]
    | succ j =>
      simp only [List.get?_cons_succ] at h
      simp only [List.set_cons_succ, runningCount, List.countP_cons]
      have := ih j h
      simp only [runningCount] at this
      omega

/-- In the launch state no worker is running. -/
theorem runningCount_launch (n : Nat) :
    runningCount (List.replicate n WPhase.waiting) = 0 := by
  induction n with
  | zero => rfl
  | succ m ih =>
    simp only [List.replicate_succ, runningCount, List.countP_cons] at ih ⊢
    simp [ih]

/-- C10: in every state reachable during `RunAll` with gate capacity k, at
most k detect calls execute simultaneously — the admission gate is acquired
before detect and released symmetrically on both the error and the success
exit path. -/
theorem gate_bounds_parallel_detects (k n : Nat) (s : List WPhase)
    (h : GateReachable k n s) : runningCount s ≤ k := by
  induction h with
  | refl => rw [runningCount_launch]; exact Nat.zero_le k
  | tail _ hstep ih =>
    cases hstep with
    | acquire i hw hk =>
      rw [runningCount_set_running _ i hw]
      omega
    | finishOk i hr =>
      have := runningCount_set_done _ i hr
      omega
    | finishErr i hr =>
      have := runningCount_set_done _ i hr
      omega

/-- Witness for `gate_bounds_parallel_detects`: with capacity 2 and three
workers, the state after one acquisition is reachable and within the bound. -/
theorem gate_bounds_parallel_detects_witness :
    GateReachable 2 3 ((List.replicate 3 WPhase.waiting).set 0 WPhase.running)
    ∧ runningCount ((List.replicate 3 WPhase.waiting).set 0 WPhase.running) ≤ 2 := by
  have hstep : GateStep 2 (List.replicate 3 WPhase.waiting)
      ((List.replicate 3 WPhase.waiting).set 0 WPhase.running) :=
    GateStep.acquire _ 0 (by rfl) (by decide)
  have hreach : GateReachable 2 3 ((List.replicate 3 WPhase.waiting).set 0 WPhase.running) :=
    Relation.ReflTransGen.single hstep
  exact ⟨hreach, gate_bounds_parallel_detects 2 3 _ hreach⟩

/-! Duplication detector (src/service/detector/duplication.go). Similarity
scores are rationals. The snippet service and the similarity search are
oracles: each candidate's raw search response is supplied as a list of
results, which the detector then filters, overlap-resolves and deduplicates.
The per-candidate workers of `Detect` are embedded under the sequential
schedule that processes candidates in list order; the cross-candidate
`reported` map is threaded through explicitly. -/

/-- SimilarCodeChunk mirrors `codeapi.SimilarCodeChunk`. -/
structure SimilarCodeChunk where
  filePath : String
  startLine : Int
  endLine : Int
  chunkType : String
  name : String
deriving DecidableEq, Repr

/-- SimilarCodeResult mirrors `codeapi.SimilarCodeResult`; the optional code
text plays no role in detection. -/
structure SimilarCodeResult where
  chunk : SimilarCodeChunk
  score : ℚ
deriving DecidableEq, Repr

/-- Out-of-range placeholder for list indexing (Go panics instead; all reads
below stay in range). -/
def defaultMatch : SimilarCodeResult := ⟨⟨"", 0, 0, "", ""⟩, 0⟩

/-- linesOverlap mirrors `DuplicationDetector.linesOverlap`. -/
def linesOverlap (start1 end1 start2 end2 : Int) : Bool :=
  decide (start1 ≤ end2) && decide (start2 ≤ end1)

/-- Statement keywords of `isFunctionChunk`'s fallback. -/
def statementKeywords : List String :=
  ["while", "for", "if", "else", "switch", "case", "try", "catch",
   "finally", "do", "foreach", "with", "match", "select", "loop"]

/-- isFunctionChunk mirrors `DuplicationDetector.isFunctionChunk`. -/
def isFunctionChunk (chunk : SimilarCodeChunk) : Bool :=
  if chunk.chunkType = "function" then true
  else if chunk.chunkType ≠ "" ∧ chunk.chunkType ≠ "function" then false
  else !(statementKeywords.contains chunk.name)

/-- betterMatch mirrors `DuplicationDetector.betterMatch`: index 0 or 1 of
the better of its two arguments — strictly higher score when the gap exceeds
0.05, otherwise the larger line span, the first argument on ties. The Go
float literal 0.05 is embedded as the exact rational `mkRat 5 100`. -/
def betterMatch (a b : SimilarCodeResult) : Nat :=
  let scoreDiff := a.score - b.score
  if scoreDiff > mkRat 5 100 then 0
  else if scoreDiff < -(mkRat 5 100) then 1
  else
    let spanA := a.chunk.endLine - a.chunk.startLine
    let spanB := b.chunk.endLine - b.chunk.startLine
    if spanA ≥ spanB then 0 else 1

/-- Inner j-loop of `deduplicateOverlappingMatches` at outer index `i`,
running over the remaining indices `js`; mirrors the Go source exactly,
including the comparison of `betterMatch`'s 0/1 result against the outer loop
index (`if better == i`), and the break that clears `kept[i]`. -/
def dedupInner (ms : List SimilarCodeResult) (i : Nat) :
    List Nat → List Bool → List Bool
  | [], kept => kept
  | j :: js, kept =>
    if kept.getD j false = false then dedupInner ms i js kept
    else if linesOverlap (ms.getD i defaultMatch).chunk.startLine
        (ms.getD i defaultMatch).chunk.endLine
        (ms.getD j defaultMatch).chunk.startLine
        (ms.getD j defaultMatch).chunk.endLine then
      if betterMatch (ms.getD i defaultMatch) (ms.getD j defaultMatch) = i then
        dedupInner ms i js (kept.set j false)
      else kept.set i false
    else dedupInner ms i js kept

/-- Outer i-loop of `deduplicateOverlappingMatches` over the index list. -/
def dedupOuter (ms : List SimilarCodeResult) : List Nat → List Bool → List Bool
  | [], kept => kept
  | i :: rest, kept =>
    if kept.getD i false then
      dedupOuter ms rest (dedupInner ms i (List.range' (i + 1) (ms.length - (i + 1))) kept)
    else dedupOuter ms rest kept

/-- Per-file-group resolution of `deduplicateOverlappingMatches`: singleton
groups pass through; larger groups run the kept-flag loops and collect the
surviving matches in order. -/
def resolveFileGroup (group : List SimilarCodeResult) : List SimilarCodeResult :=
  if group.length = 1 then group
  else
    let kept := dedupOuter group (List.range group.length)
      (List.replicate group.length true)
    (group.enum.filter fun p => kept.getD p.1 false).map fun p => p.2

/-- deduplicateOverlappingMatches mirrors the source function: group matches
by file (Go map iteration order is unspecified; the embedding fixes
first-occurrence order of the file paths) and resolve overlaps per group. -/
def deduplicateOverlappingMatches (ms : List SimilarCodeResult) : List SimilarCodeResult :=
  if ms.length ≤ 1 then ms
  else
    (firstOccurrences (ms.map fun m => m.chunk.filePath)).flatMap fun f =>
      resolveFileGroup (ms.filter fun m => decide (m.chunk.filePath = f))

/-- Match filter of `findSimilarFunctions`: keep function chunks that are not
same-file overlaps of the candidate itself and score at least the configured
similarity threshold. -/
def filterMatches (threshold : ℚ) (fn : FunctionMetrics)
    (results : List SimilarCodeResult) : List SimilarCodeResult :=
  results.filter fun r =>
    isFunctionChunk r.chunk
      && !(decide (r.chunk.filePath = fn.filePath)
            && linesOverlap fn.startLine fn.endLine r.chunk.startLine r.chunk.endLine)
      && decide (r.score ≥ threshold)

/-- findSimilarFunctions (filtering and overlap resolution of the raw search
response; the snippet fetch and language detection feeding the search are
part of the oracle). -/
def findSimilarFunctions (threshold : ℚ) (fn : FunctionMetrics)
    (results : List SimilarCodeResult) : List SimilarCodeResult :=
  deduplicateOverlappingMatches (filterMatches threshold fn results)

/-- pairKey mirrors `DuplicationDetector.pairKey`: the two identifiers joined
by ":" in lexicographic order. -/
def pairKey (id1 id2 : String) : String :=
  if id1 < id2 then id1 ++ ":" ++ id2 else id2 ++ ":" ++ id1

/-- Match-side key built in `Detect`'s reporting loop:
`fmt.Sprintf("%s:%d", match.Chunk.FilePath, match.Chunk.StartLine)`. -/
def matchKey (m : SimilarCodeResult) : String :=
  m.chunk.filePath ++ ":" ++ toString m.chunk.startLine

/-- createDuplicationIssue mirrors the source function: severity high above
score 0.95 (embedded as the exact rational `mkRat 95 100`), medium
otherwise. -/
def createDuplicationIssue (fn : FunctionMetrics) (m : SimilarCodeResult) : DebtIssue :=
  { category := CategoryDuplication, subcategory := "similar_code",
    severity := if m.score > mkRat 95 100 then SeverityHigh else SeverityMedium,
    filePath := fn.filePath, startLine := fn.startLine, endLine := fn.endLine,
    entityName := fn.name, entityType := "function" }

/-- Reporting loop of `Detect` over one candidate's matches: build
`pairKey(fn.ID, matchKey)`, skip already-reported keys, record new ones. -/
def detectMatchLoop (fn : FunctionMetrics) :
    List SimilarCodeResult → List String → List DebtIssue × List String
  | [], reported => ([], reported)
  | m :: ms, reported =>
    let key := pairKey fn.id (matchKey m)
    if key ∈ reported then detectMatchLoop fn ms reported
    else
      let next := detectMatchLoop fn ms (key :: reported)
      (createDuplicationIssue fn m :: next.1, next.2)

/-- Candidate loop of `Detect` under the sequential schedule: each candidate's
filtered matches are folded into the shared issues and reported set. -/
def detectCandidatesLoop (search : FunctionMetrics → List SimilarCodeResult) :
    List FunctionMetrics → List String → List DebtIssue
  | [], _ => []
  | fn :: rest, reported =>
    let r := detectMatchLoop fn (search fn) reported
    r.1 ++ detectCandidatesLoop search rest r.2

/-- Dedup-and-report stage of `DuplicationDetector.Detect` over the selected
candidates, ending with the shared severity filter the detector applies
before returning. -/
def DuplicationDetect (minSeverity : Severity)
    (search : FunctionMetrics → List SimilarCodeResult)
    (candidates : List FunctionMetrics) : List DebtIssue :=
  FilterBySeverity minSeverity (detectCandidatesLoop search candidates [])

/-- Candidate function in a.go, lines 10-30. -/
def fnAlpha : FunctionMetrics := sampleFn "func-alpha" "alpha" "a.go" 10 30 5

/-- Candidate function in b.go, lines 40-60. -/
def fnBeta : FunctionMetrics := sampleFn "func-beta" "beta" "b.go" 40 60 5

/-- Similarity-search oracle in which each of the two candidates discovers the
other with score 0.90 (a function chunk, different file, no overlap). -/
def rawSearchAB (fn : FunctionMetrics) : List SimilarCodeResult :=
  if fn.id = "func-alpha" then [⟨⟨"b.go", 40, 60, "function", "beta"⟩, mkRat 9 10⟩]
  else if fn.id = "func-beta" then [⟨⟨"a.go", 10, 30, "function", "alpha"⟩, mkRat 9 10⟩]
  else []

/-- C1 evaluation at the failing input: the duplication detector keys the
reported map with `pairKey(fn.ID, "file:line")`, mixing a node identity with a
location string, so the semantic pair (alpha, beta) discovered from either
side produces the two distinct keys "b.go:40:func-alpha" and
"a.go:10:func-beta" — two medium-severity issues for one duplicate pair,
where the specification promises exactly one. -/
theorem duplication_pair_reported_twice :
    (DuplicationDetect SeverityLow
        (fun fn => findSimilarFunctions (mkRat 85 100) fn (rawSearchAB fn))
        [fnAlpha, fnBeta]).length = 2
    ∧ ∀ i ∈ DuplicationDetect SeverityLow
        (fun fn => findSimilarFunctions (mkRat 85 100) fn (rawSearchAB fn))
        [fnAlpha, fnBeta], i.severity = SeverityMedium := by
  have hsA : findSimilarFunctions (mkRat 85 100) fnAlpha (rawSearchAB fnAlpha)
      = [⟨⟨"b.go", 40, 60, "function", "beta"⟩, mkRat 9 10⟩] := rfl
  have hsB : findSimilarFunctions (mkRat 85 100) fnBeta (rawSearchAB fnBeta)
      = [⟨⟨"a.go", 10, 30, "function", "alpha"⟩, mkRat 9 10⟩] := rfl
  have hlt1 : ¬ (("func-alpha" : String) < "b.go:40") := by
    rw [String.lt_iff_toList_lt]
    decide
  have hlt2 : ¬ (("func-beta" : String) < "a.go:10") := by
    rw [String.lt_iff_toList_lt]
    decide
  have hkA : pairKey fnAlpha.id
      (matchKey ⟨⟨"b.go", 40, 60, "function", "beta"⟩, mkRat 9 10⟩)
        = "b.go:40:func-alpha" := by
    have h1 : matchKey ⟨⟨"b.go", 40, 60, "function", "beta"⟩, mkRat 9 10⟩ = "b.go:40" := rfl
    have h2 : fnAlpha.id = "func-alpha" := rfl
    rw [h1, h2, pairKey, if_neg hlt1]
    rfl
  have hkB : pairKey fnBeta.id
      (matchKey ⟨⟨"a.go", 10, 30, "function", "alpha"⟩, mkRat 9 10⟩)
        = "a.go:10:func-beta" := by
    have h1 : matchKey ⟨⟨"a.go", 10, 30, "function", "alpha"⟩, mkRat 9 10⟩ = "a.go:10" := rfl
    have h2 : fnBeta.id = "func-beta" := rfl
    rw [h1, h2, pairKey, if_neg hlt2]
    rfl
  have hloop : detectCandidatesLoop
      (fun fn => findSimilarFunctions (mkRat 85 100) fn (rawSearchAB fn))
      [fnAlpha, fnBeta] []
        = [createDuplicationIssue fnAlpha ⟨⟨"b.go", 40, 60, "function", "beta"⟩, mkRat 9 10⟩,
           createDuplicationIssue fnBeta ⟨⟨"a.go", 10, 30, "function", "alpha"⟩, mkRat 9 10⟩] := by
    simp +decide only [detectCandidatesLoop, detectMatchLoop, hsA, hsB, hkA, hkB,
      List.not_mem_nil, List.mem_singleton, if_false, ite_false]
  have hfin : DuplicationDetect SeverityLow
      (fun fn => findSimilarFunctions (mkRat 85 100) fn (rawSearchAB fn))
      [fnAlpha, fnBeta]
        = [createDuplicationIssue fnAlpha ⟨⟨"b.go", 40, 60, "function", "beta"⟩, mkRat 9 10⟩,
           createDuplicationIssue fnBeta ⟨⟨"a.go", 10, 30, "function", "alpha"⟩, mkRat 9 10⟩] := by
    unfold DuplicationDetect
    rw [hloop]
    rfl
  rw [hfin]
  constructor
  · rfl
  · decide

/-- Non-overlapping match far away in the file. -/
def matchFar : SimilarCodeResult := ⟨⟨"dup.go", 100, 110, "function", "other"⟩, mkRat 9 10⟩

/-- Lower-scored small match, lines 1-10. -/
def matchSmall : SimilarCodeResult := ⟨⟨"dup.go", 1, 10, "function", "inner"⟩, mkRat 86 100⟩

/-- Higher-scored larger match overlapping `matchSmall`, lines 1-12; its score
exceeds `matchSmall`'s by 0.13 > 0.05, so by the specification it must win. -/
def matchBig : SimilarCodeResult := ⟨⟨"dup.go", 1, 12, "function", "outer"⟩, mkRat 99 100⟩

/-- C7 evaluation at the failing input: `betterMatch` correctly picks index 1
(`matchBig`) for the overlapping pair, but the overlap-resolution loop
compares that 0/1 result against the outer loop index (`if better == i`), so
at i = 1 it discards the better match and keeps the worse one. -/
theorem overlap_resolution_keeps_worse_match :
    deduplicateOverlappingMatches [matchFar, matchSmall, matchBig]
        = [matchFar, matchSmall]
    ∧ betterMatch matchSmall matchBig = 1 := by
  have h12 : betterMatch matchSmall matchBig = 1 := by
    norm_num [betterMatch, matchSmall, matchBig, Rat.mkRat_eq_div]
  constructor
  · unfold deduplicateOverlappingMatches
    rw [if_neg (by decide)]
    have hfo : firstOccurrences
        ([matchFar, matchSmall, matchBig].map fun m => m.chunk.filePath)
          = ["dup.go"] := by
      simp +decide [firstOccurrences, List.filter_cons, matchFar, matchSmall, matchBig]
    rw [hfo]
    have hflt : [matchFar, matchSmall, matchBig].filter
        (fun m => decide (m.chunk.filePath = "dup.go"))
          = [matchFar, matchSmall, matchBig] := rfl
    simp only [List.flatMap_cons, List.flatMap_nil, List.append_nil, hflt]
    unfold resolveFileGroup
    rw [if_neg (by decide)]
    simp +decide [dedupOuter, dedupInner, List.range_succ, List.range_zero,
      List.range', List.getD_cons_zero, List.getD_cons_succ, linesOverlap, h12,
      List.filter_cons, List.enum, List.enumFrom]
  · exact h12

end QualityBot
